import Mathlib

/-!
Verification of the `AgentClient` class of `src/js/agent-client.js`.

Two components are embedded:
* `callAgent` — the request gate around the network call.  The network is
  abstracted as a `FetchOutcome` argument describing what `fetch` and
  `response.json()` would do; the function returns the produced result,
  the final value of the `loading` flag, and whether a network request
  was issued.
* `formatResponse` — the markdown-to-HTML formatter, embedded pass by
  pass.  Each JavaScript regex replacement is modelled by a left-to-right
  scanner on `List Char` with the exact backtracking behaviour of the
  pattern; scanners that are not structurally recursive on the list take
  an explicit fuel argument, and the top level supplies the input length
  as fuel, which is enough because every step consumes at least one
  character.
-/

namespace AgentClient

/-- JavaScript whitespace, as used by `String.prototype.trim` and by the
`\s` regex class: ASCII whitespace plus no-break space and the BOM
(other Unicode space-category characters are not used by any input
considered here). -/
def isJsWs (c : Char) : Bool :=
  c == ' ' || c == '\t' || c == '\n' || c == '\r' ||
    c == '\x0b' || c == '\x0c' || c == '\u00A0' || c == '\uFEFF'

/-- JavaScript `String.prototype.trim` on a character list. -/
def jsTrim (l : List Char) : List Char :=
  ((l.dropWhile isJsWs).reverse.dropWhile isJsWs).reverse

/-- JavaScript `String.prototype.trim`. -/
def jsTrimS (s : String) : String := ⟨jsTrim s.data⟩

/-! ## Request gate: `callAgent` -/

/-- The `{response, error}` object returned by `callAgent`. -/
structure AgentResult where
  response : String
  error : String
deriving DecidableEq

/-- The parsed JSON body `{error?, response?}` of a successful fetch;
`none` fields are absent properties. -/
structure AgentData where
  error : Option String
  response : Option String
deriving DecidableEq

/-- What the environment does when `callAgent` reaches the `fetch` call:
the promise rejects (`fetchThrows`), or an HTTP response arrives with a
status code and, if the body parses as JSON, its parsed form
(`none` means `response.json()` throws). -/
inductive FetchOutcome where
  | fetchThrows : FetchOutcome
  | resp : Nat → Option AgentData → FetchOutcome
deriving DecidableEq

/-- JavaScript truthiness of an optional string field: an absent field
and the empty string are falsy. -/
def truthy : Option String → Bool
  | none => false
  | some s => !(s == "")

/-- `data.response || 'No response received'`. -/
def responseOr : Option String → String
  | none => "No response received"
  | some r => if r == "" then "No response received" else r

/-- The `catch` branch's result. -/
def connectError : AgentResult :=
  ⟨"", "Unable to connect to AI service. Please check your connection and try again."⟩

/-- The value of the `try` block of `callAgent` once the guards have
passed: `response.ok` is `200 ≤ status ≤ 299`; a thrown error (rejected
fetch, non-ok status, unparsable body) is caught and mapped to
`connectError`. -/
def mainResult : FetchOutcome → AgentResult
  | .fetchThrows => connectError
  | .resp status body =>
    if 200 ≤ status ∧ status ≤ 299 then
      match body with
      | none => connectError
      | some data =>
        if truthy data.error then ⟨"", data.error.getD ""⟩
        else ⟨responseOr data.response, ""⟩
    else connectError

/-- `callAgent(prompt, agent)` as a function of the current `loading`
flag and the abstracted network outcome.  Returns
(result, final loading flag, whether a network request was issued).
The `finally` block resets `loading` to `false` on every path of the
main branch. -/
def callAgent (loading : Bool) (prompt : String) (outcome : FetchOutcome) :
    AgentResult × Bool × Bool :=
  if loading then
    (⟨"", "Already processing a request. Please wait."⟩, loading, false)
  else if prompt == "" || jsTrimS prompt == "" then
    (⟨"", "Please enter a prompt or question."⟩, loading, false)
  else
    (mainResult outcome, false, true)

/-! ### Request-gate theorems -/

lemma guard_false {p : String} (h : jsTrimS p ≠ "") :
    (p == "" || jsTrimS p == "") = false := by
  have hp : p ≠ "" := by
    intro he
    subst he
    exact h (by decide)
  simp [hp, h]

/-- C5: whenever a call is already in flight (`loading = true`),
`callAgent` returns the busy error with an empty response, issues no
network request, and leaves the flag unchanged (still `true`). -/
theorem c5_busy_rejected (p : String) (o : FetchOutcome) :
    callAgent true p o =
      (⟨"", "Already processing a request. Please wait."⟩, true, false) := by
  simp [callAgent]

/-- C6: with the gate idle, an empty or all-whitespace prompt yields the
empty-prompt error, no network request, and an unchanged flag. -/
theorem c6_empty_prompt (p : String) (o : FetchOutcome) (h : jsTrimS p = "") :
    callAgent false p o =
      (⟨"", "Please enter a prompt or question."⟩, false, false) := by
  simp [callAgent, h]

theorem c6_empty_prompt_witness :
    (jsTrimS " " = "") ∧
      callAgent false " " .fetchThrows =
        (⟨"", "Please enter a prompt or question."⟩, false, false) :=
  ⟨by decide, c6_empty_prompt " " .fetchThrows (by decide)⟩

/-- C4: once the guards pass, every exit path of the main branch —
success, service-reported error, transport failure, exception — leaves
the `loading` flag `false`, and a subsequent call with a valid prompt is
accepted (it issues a network request rather than being busy-rejected). -/
theorem c4_flag_released (p p' : String) (o o' : FetchOutcome)
    (h : jsTrimS p ≠ "") (h' : jsTrimS p' ≠ "") :
    (callAgent false p o).2.1 = false ∧
      (callAgent (callAgent false p o).2.1 p' o').2.2 = true := by
  have hg := guard_false h
  have hg' := guard_false h'
  constructor
  · simp [callAgent, hg]
  · simp [callAgent, hg, hg']

theorem c4_flag_released_witness :
    (jsTrimS "hi" ≠ "") ∧ (jsTrimS "again" ≠ "") ∧
      ((callAgent false "hi" .fetchThrows).2.1 = false ∧
        (callAgent (callAgent false "hi" .fetchThrows).2.1 "again"
            (.resp 200 (some ⟨none, some "ok"⟩))).2.2 = true) :=
  ⟨by decide, by decide,
    c4_flag_released "hi" "again" .fetchThrows
      (.resp 200 (some ⟨none, some "ok"⟩)) (by decide) (by decide)⟩

/-- C7: on a 2xx response whose body parses, a truthy `error` field is
propagated verbatim with an empty response; otherwise the result carries
`body.response`, or `"No response received"` when that field is absent
or empty, and an empty error. -/
theorem c7_success_body (p : String) (status : Nat) (err resp : Option String)
    (h : jsTrimS p ≠ "") (h2 : 200 ≤ status) (h3 : status ≤ 299) :
    (∀ e, err = some e → e ≠ "" →
        callAgent false p (.resp status (some ⟨err, resp⟩)) =
          (⟨"", e⟩, false, true)) ∧
    ((err = none ∨ err = some "") → ∀ r, resp = some r → r ≠ "" →
        callAgent false p (.resp status (some ⟨err, resp⟩)) =
          (⟨r, ""⟩, false, true)) ∧
    ((err = none ∨ err = some "") → (resp = none ∨ resp = some "") →
        callAgent false p (.resp status (some ⟨err, resp⟩)) =
          (⟨"No response received", ""⟩, false, true)) := by
  have hg := guard_false h
  refine ⟨?_, ?_, ?_⟩
  · intro e he hne
    subst he
    simp [callAgent, hg, mainResult, h2, h3, truthy, hne]
  · intro herr r hr hnr
    subst hr
    rcases herr with he | he <;> subst he <;>
      simp [callAgent, hg, mainResult, h2, h3, truthy, responseOr, hnr]
  · intro herr hresp
    rcases herr with he | he <;> rcases hresp with hr | hr <;>
      subst he <;> subst hr <;>
      simp [callAgent, hg, mainResult, h2, h3, truthy, responseOr]

theorem c7_success_body_witness :
    (jsTrimS "q" ≠ "") ∧ (200 ≤ 200) ∧ (200 ≤ 299) ∧
      (callAgent false "q" (.resp 200 (some ⟨some "boom", some "x"⟩)) =
          (⟨"", "boom"⟩, false, true)) ∧
      (callAgent false "q" (.resp 200 (some ⟨none, some "ans"⟩)) =
          (⟨"ans", ""⟩, false, true)) ∧
      (callAgent false "q" (.resp 200 (some ⟨none, none⟩)) =
          (⟨"No response received", ""⟩, false, true)) :=
  ⟨by decide, by decide, by decide,
    (c7_success_body "q" 200 (some "boom") (some "x")
        (by decide) (by decide) (by decide)).1 "boom" rfl (by decide),
    (c7_success_body "q" 200 none (some "ans")
        (by decide) (by decide) (by decide)).2.1 (Or.inl rfl) "ans" rfl (by decide),
    (c7_success_body "q" 200 none none
        (by decide) (by decide) (by decide)).2.2 (Or.inl rfl) (Or.inl rfl)⟩

/-- C8: every transport failure — rejected fetch, non-2xx status, or a
body that fails JSON parsing — yields exactly the fixed connection-error
message, with the underlying error never exposed. -/
theorem c8_transport_failure (p : String) (h : jsTrimS p ≠ "") :
    (callAgent false p .fetchThrows =
        (⟨"", "Unable to connect to AI service. Please check your connection and try again."⟩,
          false, true)) ∧
    (∀ status body, ¬(200 ≤ status ∧ status ≤ 299) →
        callAgent false p (.resp status body) =
          (⟨"", "Unable to connect to AI service. Please check your connection and try again."⟩,
            false, true)) ∧
    (∀ status, 200 ≤ status → status ≤ 299 →
        callAgent false p (.resp status none) =
          (⟨"", "Unable to connect to AI service. Please check your connection and try again."⟩,
            false, true)) := by
  have hg := guard_false h
  refine ⟨?_, ?_, ?_⟩
  · simp [callAgent, hg, mainResult, connectError]
  · intro status body hbad
    simp [callAgent, hg, mainResult, hbad, connectError]
  · intro status h2 h3
    simp [callAgent, hg, mainResult, h2, h3, connectError]

theorem c8_transport_failure_witness :
    (jsTrimS "q" ≠ "") ∧ (¬(200 ≤ 500 ∧ 500 ≤ 299)) ∧
      (callAgent false "q" .fetchThrows =
          (⟨"", "Unable to connect to AI service. Please check your connection and try again."⟩,
            false, true)) ∧
      (callAgent false "q" (.resp 500 (some ⟨none, some "x"⟩)) =
          (⟨"", "Unable to connect to AI service. Please check your connection and try again."⟩,
            false, true)) ∧
      (callAgent false "q" (.resp 200 none) =
          (⟨"", "Unable to connect to AI service. Please check your connection and try again."⟩,
            false, true)) :=
  ⟨by decide, by decide,
    (c8_transport_failure "q" (by decide)).1,
    (c8_transport_failure "q" (by decide)).2.1 500 (some ⟨none, some "x"⟩) (by decide),
    (c8_transport_failure "q" (by decide)).2.2 200 (by decide) (by decide)⟩

/-! ## Text formatter: `formatResponse`

Each regex replacement of `formatResponse` is embedded as a function on
`List Char`.  A global `replace` is a left-to-right scan: at each
position the pattern is tried; on success the replacement is emitted and
the scan resumes after the matched text (replacements are not
rescanned); on failure one character is emitted and the scan advances by
one.  Scanners whose recursion is not structural take a fuel argument;
`runPass` supplies the input length, which suffices since every step
consumes at least one character. -/

/-- Run a fuelled scanner with the input length as fuel. -/
def runPass (f : Nat → List Char → List Char) (l : List Char) : List Char :=
  f l.length l

/-- The `\w` class of JavaScript regexes: `[A-Za-z0-9_]`. -/
def isWordChar (c : Char) : Bool := c.isAlphanum || c == '_'

/-- `&` → `&amp;` (first escape pass). -/
def escAmp : List Char → List Char
  | [] => []
  | c :: cs => (if c = '&' then "&amp;".data else [c]) ++ escAmp cs

/-- `<` → `&lt;` (second escape pass). -/
def escLt : List Char → List Char
  | [] => []
  | c :: cs => (if c = '<' then "&lt;".data else [c]) ++ escLt cs

/-- `>` → `&gt;` (third escape pass). -/
def escGt : List Char → List Char
  | [] => []
  | c :: cs => (if c = '>' then "&gt;".data else [c]) ++ escGt cs

/-- The three escape passes of `formatResponse`, in source order. -/
def escapeHtml (l : List Char) : List Char := escGt (escLt (escAmp l))

/-- Split at the first occurrence of three backticks: the lazy
`[\s\S]*?` body of the code-block regex, terminated by the closing
fence.  Returns (body, text after the fence). -/
def splitAtFence : List Char → Option (List Char × List Char)
  | [] => none
  | c :: cs =>
    if c = '`' ∧ cs.take 2 = ['`', '`'] then some ([], cs.drop 2)
    else
      match splitAtFence cs with
      | some (b, r) => some (c :: b, r)
      | none => none

/-- The replacement text of the code-block rule: an absent language tag
falls back to `text`, and the body is trimmed. -/
def codeBlockRepl (lang body : List Char) : List Char :=
  "<pre><code class=\"language-".data ++
    (if lang.isEmpty then "text".data else lang) ++
    "\">".data ++ jsTrim body ++ "</code></pre>".data

/-- Attempt `/```(\w+)?\n([\s\S]*?)```/` at the start of `l`: three
backticks, then the maximal (possibly empty) run of word characters,
which must be followed immediately by a newline (the greedy `(\w+)?`
cannot backtrack into a newline), then the shortest body closed by three
backticks.  Returns (replacement, rest). -/
def fenceMatch (l : List Char) : Option (List Char × List Char) :=
  match l with
  | '`' :: '`' :: '`' :: rest =>
    match rest.dropWhile isWordChar with
    | '\n' :: afterNl =>
      match splitAtFence afterNl with
      | some (body, rest2) =>
        some (codeBlockRepl (rest.takeWhile isWordChar) body, rest2)
      | none => none
    | _ => none
  | _ => none

/-- The code-block pass. -/
def codeBlocks : Nat → List Char → List Char
  | 0, l => l
  | _ + 1, [] => []
  | fuel + 1, c :: cs =>
    match fenceMatch (c :: cs) with
    | some (repl, rest) => repl ++ codeBlocks fuel rest
    | none => c :: codeBlocks fuel cs

/-- Split at the first single backtick. -/
def splitAtTick : List Char → Option (List Char × List Char)
  | [] => none
  | c :: cs =>
    if c = '`' then some ([], cs)
    else
      match splitAtTick cs with
      | some (b, r) => some (c :: b, r)
      | none => none

/-- The inline-code pass `/`([^`]+)`/g → `<code>$1</code>`; the content
is everything up to the next backtick and must be non-empty (on two
adjacent backticks the match fails and the scan advances one
character). -/
def inlineCode : Nat → List Char → List Char
  | 0, l => l
  | _ + 1, [] => []
  | fuel + 1, c :: cs =>
    if c = '`' then
      match splitAtTick cs with
      | some ([], _) => c :: inlineCode fuel cs
      | some (co, rest) => "<code>".data ++ co ++ "</code>".data ++ inlineCode fuel rest
      | none => c :: inlineCode fuel cs
    else c :: inlineCode fuel cs

/-- Apply a per-line transform, as a `/^...$/gm` replacement does: the
pattern can neither span nor consume a newline. -/
def mapLines (f : List Char → List Char) (l : List Char) : List Char :=
  List.intercalate ['\n'] ((l.splitOn '\n').map f)

/-- `/^### (.+)$/` on one line. -/
def h4Line : List Char → List Char
  | '#' :: '#' :: '#' :: ' ' :: rest =>
    if rest.isEmpty then '#' :: '#' :: '#' :: ' ' :: rest
    else "<h4>".data ++ rest ++ "</h4>".data
  | l => l

/-- `/^## (.+)$/` on one line. -/
def h3Line : List Char → List Char
  | '#' :: '#' :: ' ' :: rest =>
    if rest.isEmpty then '#' :: '#' :: ' ' :: rest
    else "<h3>".data ++ rest ++ "</h3>".data
  | l => l

/-- `/^# (.+)$/` on one line. -/
def h2Line : List Char → List Char
  | '#' :: ' ' :: rest =>
    if rest.isEmpty then '#' :: ' ' :: rest
    else "<h2>".data ++ rest ++ "</h2>".data
  | l => l

/-- `/^- (.+)$/` on one line. -/
def dashLine : List Char → List Char
  | '-' :: ' ' :: rest =>
    if rest.isEmpty then '-' :: ' ' :: rest
    else "<li>".data ++ rest ++ "</li>".data
  | l => l

/-- `/^(\d+)\. (.+)$/` on one line: the numeric prefix is dropped. -/
def numLine (l : List Char) : List Char :=
  if (l.takeWhile Char.isDigit).isEmpty then l
  else
    match l.dropWhile Char.isDigit with
    | '.' :: ' ' :: rest =>
      if rest.isEmpty then l else "<li>".data ++ rest ++ "</li>".data
    | _ => l

/-- Within the current line (a `.` cannot cross a newline), split off a
segment ending at the LAST `</li>` of the line — the greedy `.*` of the
list-wrapping regex backtracks to the last closing tag.  Returns
(segment including the final `</li>`, rest). -/
def lastLiClose : List Char → Option (List Char × List Char)
  | [] => none
  | '\n' :: _ => none
  | '<' :: '/' :: 'l' :: 'i' :: '>' :: rest =>
    (match lastLiClose rest with
     | some (a, r) => some ('<' :: '/' :: 'l' :: 'i' :: '>' :: a, r)
     | none => some (['<', '/', 'l', 'i', '>'], rest))
  | c :: cs =>
    match lastLiClose cs with
    | some (a, r) => some (c :: a, r)
    | none => none

/-- One repetition `<li>.*<\/li>\n?` of the list-wrapping regex. -/
def liUnit : List Char → Option (List Char × List Char)
  | '<' :: 'l' :: 'i' :: '>' :: rest =>
    (match lastLiClose rest with
     | some (a, r) =>
       match r with
       | '\n' :: r2 => some ('<' :: 'l' :: 'i' :: '>' :: (a ++ ['\n']), r2)
       | _ => some ('<' :: 'l' :: 'i' :: '>' :: a, r)
     | none => none)
  | _ => none

/-- The greedy `(...)+`: as many repetitions as possible, at least one.
No repetition is ever given back, since nothing follows the `+` in the
pattern. -/
def liRun : Nat → List Char → Option (List Char × List Char)
  | 0, _ => none
  | fuel + 1, l =>
    match liUnit l with
    | none => none
    | some (m, r) =>
      match liRun fuel r with
      | some (m2, r2) => some (m ++ m2, r2)
      | none => some (m, r)

/-- The list-wrapping pass `/(<li>.*<\/li>\n?)+/g → `<ul>$&</ul>`. -/
def wrapLists : Nat → List Char → List Char
  | 0, l => l
  | _ + 1, [] => []
  | fuel + 1, c :: cs =>
    match liRun (fuel + 1) (c :: cs) with
    | some (m, r) => "<ul>".data ++ m ++ "</ul>".data ++ wrapLists fuel r
    | none => c :: wrapLists fuel cs

/-- First occurrence of `**` (for the lazy `.+?` of the bold rule); the
search fails at a newline, which `.` cannot match. -/
def findStar2 : List Char → Option (List Char × List Char)
  | [] => none
  | '*' :: '*' :: rest => some ([], rest)
  | '\n' :: _ => none
  | c :: cs =>
    match findStar2 cs with
    | some (b, r) => some (c :: b, r)
    | none => none

/-- The bold pass `/\*\*(.+?)\*\*/g → `<strong>$1</strong>`: after an
opening `**`, the lazy content takes at least one non-newline character
and stops at the first following `**`. -/
def boldPass : Nat → List Char → List Char
  | 0, l => l
  | _ + 1, [] => []
  | fuel + 1, '*' :: '*' :: c :: cs =>
    if c = '\n' then '*' :: boldPass fuel ('*' :: c :: cs)
    else
      match findStar2 cs with
      | some (mid, rest) =>
        "<strong>".data ++ (c :: mid) ++ "</strong>".data ++ boldPass fuel rest
      | none => '*' :: boldPass fuel ('*' :: c :: cs)
  | fuel + 1, c :: cs => c :: boldPass fuel cs

/-- First occurrence of `*` (for the lazy `.+?` of the italic rule). -/
def findStar1 : List Char → Option (List Char × List Char)
  | [] => none
  | '*' :: rest => some ([], rest)
  | '\n' :: _ => none
  | c :: cs =>
    match findStar1 cs with
    | some (b, r) => some (c :: b, r)
    | none => none

/-- The italic pass `/\*(.+?)\*/g → `<em>$1</em>`. -/
def italicPass : Nat → List Char → List Char
  | 0, l => l
  | _ + 1, [] => []
  | fuel + 1, '*' :: c :: cs =>
    if c = '\n' then '*' :: italicPass fuel (c :: cs)
    else
      match findStar1 cs with
      | some (mid, rest) =>
        "<em>".data ++ (c :: mid) ++ "</em>".data ++ italicPass fuel rest
      | none => '*' :: italicPass fuel (c :: cs)
  | fuel + 1, c :: cs => c :: italicPass fuel cs

/-- `\n\n` → `</p><p>` (non-overlapping, left to right). -/
def paraBreaks : Nat → List Char → List Char
  | 0, l => l
  | _ + 1, [] => []
  | fuel + 1, '\n' :: '\n' :: rest => "</p><p>".data ++ paraBreaks fuel rest
  | fuel + 1, c :: cs => c :: paraBreaks fuel cs

/-- `\n` → `<br>`. -/
def lineBreaks : List Char → List Char
  | [] => []
  | '\n' :: cs => "<br>".data ++ lineBreaks cs
  | c :: cs => c :: lineBreaks cs

/-- If `pat` begins `l`, the text after it. -/
def dropLit : List Char → List Char → Option (List Char)
  | [], l => some l
  | _ :: _, [] => none
  | p :: ps, c :: cs => if c = p then dropLit ps cs else none

/-- Does `pat` begin `l`? -/
def begins (pat l : List Char) : Bool := (dropLit pat l).isSome

/-- Does `pat` occur anywhere in the list? -/
def hasSeg (pat : List Char) : List Char → Bool
  | [] => begins pat []
  | c :: cs => begins pat (c :: cs) || hasSeg pat cs

/-- The cleanup passes share the shape `a`, then `\s*`, then `b`,
replaced by `rep`; the greedy `\s*` necessarily stops exactly at the
first non-whitespace character. -/
def fuseTags (a b rep : List Char) : Nat → List Char → List Char
  | 0, l => l
  | _ + 1, [] => []
  | fuel + 1, c :: cs =>
    match dropLit a (c :: cs) with
    | some r =>
      match dropLit b (r.dropWhile isJsWs) with
      | some r2 => rep ++ fuseTags a b rep fuel r2
      | none => c :: fuseTags a b rep fuel cs
    | none => c :: fuseTags a b rep fuel cs

/-- `formatResponse`, pass for pass in source order. -/
def formatResponse (text : String) : String :=
  if text == "" then ""
  else
    let s := escapeHtml text.data
    let s := runPass codeBlocks s
    let s := runPass inlineCode s
    let s := mapLines h4Line s
    let s := mapLines h3Line s
    let s := mapLines h2Line s
    let s := mapLines dashLine s
    let s := mapLines numLine s
    let s := runPass wrapLists s
    let s := runPass boldPass s
    let s := runPass italicPass s
    let s := runPass paraBreaks s
    let s := lineBreaks s
    let s := "<p>".data ++ s ++ "</p>".data
    let s := runPass (fuseTags "<p>".data "</p>".data []) s
    let s := runPass (fuseTags "<p>".data "<ul>".data "<ul>".data) s
    let s := runPass (fuseTags "</ul>".data "</p>".data "</ul>".data) s
    ⟨s⟩

/-! ## Formatter theorems -/

/-- C2 (counterexample): `format("- a\n- b")` is not
`<ul><li>a</li><li>b</li></ul>` — the newline captured between the two
list items by the wrapping regex is later turned into `<br>`. -/
theorem c2_counterexample :
    formatResponse "- a\n- b" ≠ "<ul><li>a</li><li>b</li></ul>" := by
  decide

/-- C2 (amended): `format("- a\n- b")` returns
`<ul><li>a</li><br><li>b</li></ul>`: both items sit in a single `<ul>`
with no surrounding paragraph tags, but the newline between them
appears as a `<br>` separating the two `<li>` elements. -/
theorem c2_amended :
    formatResponse "- a\n- b" = "<ul><li>a</li><br><li>b</li></ul>" := by
  decide

/-- C3 (counterexample): `format("```js\ncode();\n```")` is not the bare
`<pre><code class="language-js">code();</code></pre>`. -/
theorem c3_counterexample :
    formatResponse "```js\ncode();\n```" ≠
      "<pre><code class=\"language-js\">code();</code></pre>" := by
  decide

/-- C3 (amended): `format("```js\ncode();\n```")` returns the code block
wrapped in paragraph tags,
`<p><pre><code class="language-js">code();</code></pre></p>` — the
cleanup passes only strip `<p>` tags around `<ul>`, not around
`<pre>`. -/
theorem c3_amended :
    formatResponse "```js\ncode();\n```" =
      "<p><pre><code class=\"language-js\">code();</code></pre></p>" := by
  decide

/-- C10: inline code spans are not protected from later substitutions:
`format("`*x*`")` yields an `<em>` element inside the inline `<code>`
element, `<p><code><em>x</em></code></p>`. -/
theorem c10_inline_code_not_protected :
    formatResponse "`*x*`" = "<p><code><em>x</em></code></p>" := by
  decide

/-- C1 (counterexample): for the input "```js\na\nb\n```" the enclosed
trimmed content `a\nb` does not appear in the output — its interior
newline was rewritten to `<br>` by the line-break substitution. -/
theorem c1_counterexample :
    formatResponse "```js\na\nb\n```" =
      "<p><pre><code class=\"language-js\">a<br>b</code></pre></p>" ∧
    hasSeg "a\nb".data (formatResponse "```js\na\nb\n```").data = false := by
  constructor <;> decide


/-- Per-character escaping map: what a single application of the three
escape rules does to one character. -/
def escChar (c : Char) : List Char :=
  if c = '&' then "&amp;".data
  else if c = '<' then "&lt;".data
  else if c = '>' then "&gt;".data
  else [c]

/-- `escChar` applied characterwise. -/
def escSpec : List Char → List Char
  | [] => []
  | c :: cs => escChar c ++ escSpec cs

lemma escLt_append (a b : List Char) : escLt (a ++ b) = escLt a ++ escLt b := by
  induction a with
  | nil => rfl
  | cons c cs ih => simp [escLt, ih]

lemma escGt_append (a b : List Char) : escGt (a ++ b) = escGt a ++ escGt b := by
  induction a with
  | nil => rfl
  | cons c cs ih => simp [escGt, ih]

lemma escapeHtml_cons (c : Char) (cs : List Char) :
    escapeHtml (c :: cs) = escChar c ++ escapeHtml cs := by
  show escGt (escLt (escAmp (c :: cs))) = _
  have h1 : escAmp (c :: cs) = (if c = '&' then "&amp;".data else [c]) ++ escAmp cs := rfl
  by_cases ha : c = '&'
  · subst ha
    rw [h1, if_pos rfl, escLt_append, escGt_append]
    have e1 : escGt (escLt "&amp;".data) = "&amp;".data := by decide
    rw [e1]
    rfl
  · rw [h1, if_neg ha, escLt_append, escGt_append]
    by_cases hb : c = '<'
    · subst hb
      have e1 : escGt (escLt ['<']) = "&lt;".data := by decide
      rw [e1]
      rfl
    · by_cases hc : c = '>'
      · subst hc
        have e1 : escGt (escLt ['>']) = "&gt;".data := by decide
        rw [e1]
        rfl
      · have e1 : escLt [c] = [c] := by simp [escLt, hb]
        have e2 : escGt [c] = [c] := by simp [escGt, hc]
        rw [e1, e2]
        simp only [escChar, if_neg ha, if_neg hb, if_neg hc, List.singleton_append]
        rfl

lemma escapeHtml_spec (l : List Char) : escapeHtml l = escSpec l := by
  induction l with
  | nil => rfl
  | cons c cs ih => rw [escapeHtml_cons, ih]; rfl

/-- No raw `<` or `>` character survives escaping. -/
def noAngles (l : List Char) : Bool :=
  l.all fun c => !(c == '<') && !(c == '>')

lemma escape_noAngles (l : List Char) : noAngles (escapeHtml l) = true := by
  rw [escapeHtml_spec]
  induction l with
  | nil => rfl
  | cons c cs ih =>
    show noAngles (escChar c ++ escSpec cs) = true
    have ih2 : (escSpec cs).all (fun c => !(c == '<') && !(c == '>')) = true := ih
    have hpiece : (escChar c).all (fun c => !(c == '<') && !(c == '>')) = true := by
      by_cases ha : c = '&'
      · subst ha; decide
      · by_cases hb : c = '<'
        · subst hb; decide
        · by_cases hc : c = '>'
          · subst hc; decide
          · simp [escChar, ha, hb, hc]
    rw [noAngles, List.all_append, hpiece, ih2]
    rfl

/-- Every `&` in the list begins one of the three entities `&amp;`,
`&lt;`, `&gt;`. -/
def ampsOk : List Char → Bool
  | [] => true
  | c :: cs =>
    (if c = '&' then
       begins "amp;".data cs || begins "lt;".data cs || begins "gt;".data cs
     else true) && ampsOk cs

lemma ampsOk_cons_ne {c : Char} (h : ¬c = '&') (rest : List Char) :
    ampsOk (c :: rest) = ampsOk rest := by
  simp [ampsOk, h]

lemma ampsOk_amp (rest : List Char) :
    ampsOk ("&amp;".data ++ rest) = ampsOk rest := rfl

lemma ampsOk_lt (rest : List Char) :
    ampsOk ("&lt;".data ++ rest) = ampsOk rest := rfl

lemma ampsOk_gt (rest : List Char) :
    ampsOk ("&gt;".data ++ rest) = ampsOk rest := rfl

lemma escape_ampsOk (l : List Char) : ampsOk (escapeHtml l) = true := by
  rw [escapeHtml_spec]
  induction l with
  | nil => rfl
  | cons c cs ih =>
    show ampsOk (escChar c ++ escSpec cs) = true
    by_cases ha : c = '&'
    · subst ha
      rw [show escChar '&' = "&amp;".data from rfl, ampsOk_amp]
      exact ih
    · by_cases hb : c = '<'
      · subst hb
        rw [show escChar '<' = "&lt;".data from rfl, ampsOk_lt]
        exact ih
      · by_cases hc : c = '>'
        · subst hc
          rw [show escChar '>' = "&gt;".data from rfl, ampsOk_gt]
          exact ih
        · rw [show escChar c = [c] by simp [escChar, ha, hb, hc],
            List.singleton_append, ampsOk_cons_ne ha]
          exact ih

/-- C9: the three escape passes amount to a single characterwise
substitution (so escaping happens exactly once, before any markup is
introduced); escaped text contains no raw `<` or `>` and every `&` in
it begins an entity; and concretely `format("<script>")` produces
`&lt;script&gt;` with no literal `<script>` in the output. -/
theorem c9_escape_once_before_markup :
    (∀ l : List Char, escapeHtml l = escSpec l) ∧
    (∀ l : List Char, noAngles (escapeHtml l) = true) ∧
    (∀ l : List Char, ampsOk (escapeHtml l) = true) ∧
    formatResponse "<script>" = "<p>&lt;script&gt;</p>" ∧
    hasSeg "<script>".data (formatResponse "<script>").data = false ∧
    hasSeg "&lt;script&gt;".data (formatResponse "<script>").data = true :=
  ⟨escapeHtml_spec, escape_noAngles, escape_ampsOk,
    by decide, by decide, by decide⟩


/-! ### The code-block pass on a well-formed fenced block (for C1) -/

lemma fence_lang_split (lang : List Char) (h : lang.all isWordChar = true)
    (rest : List Char) :
    (lang ++ '\n' :: rest).takeWhile isWordChar = lang ∧
    (lang ++ '\n' :: rest).dropWhile isWordChar = '\n' :: rest := by
  induction lang with
  | nil =>
    have hnl : isWordChar '\n' = false := by decide
    constructor <;> simp [List.takeWhile_cons, List.dropWhile_cons, hnl]
  | cons c cs ih =>
    rw [List.all_cons] at h
    obtain ⟨h1, h2⟩ := Bool.and_eq_true_iff.mp h
    obtain ⟨iht, ihd⟩ := ih h2
    constructor
    · rw [List.cons_append, List.takeWhile_cons, h1, iht]
      simp
    · rw [List.cons_append, List.dropWhile_cons, h1, ihd]
      simp

lemma splitAtFence_clean (body : List Char)
    (h1 : hasSeg ['`', '`', '`'] body = false)
    (h2 : body.getLast? ≠ some '`') :
    splitAtFence (body ++ ['`', '`', '`']) = some (body, []) := by
  induction body with
  | nil => rfl
  | cons c cs ih =>
    have h1' : hasSeg ['`', '`', '`'] cs = false := by
      have h := h1
      rw [hasSeg] at h
      exact (Bool.or_eq_false_iff.mp h).2
    have h2' : cs.getLast? ≠ some '`' := by
      cases cs with
      | nil => simp
      | cons d ds =>
        intro hl
        apply h2
        rw [List.getLast?_cons_cons]
        exact hl
    have hne : ¬(c = '`' ∧ (cs ++ ['`', '`', '`']).take 2 = ['`', '`']) := by
      rintro ⟨hc, htake⟩
      subst hc
      rcases cs with _ | ⟨d, _ | ⟨e, rest⟩⟩
      · exact h2 rfl
      · have hd : d = '`' := by simpa using htake
        subst hd
        exact h2 (by simp)
      · have hde : d = '`' ∧ e = '`' := by simpa using htake
        obtain ⟨hd, he⟩ := hde
        subst hd
        subst he
        rw [hasSeg] at h1
        have hb : begins ['`', '`', '`'] ('`' :: '`' :: '`' :: rest) = true := rfl
        rw [hb] at h1
        simp at h1
    rw [List.cons_append]
    rw [splitAtFence]
    rw [if_neg hne, ih h1' h2']

/-- C1 (amended): the code-block substitution step does place the
enclosed content, trimmed of leading/trailing whitespace but not
otherwise altered, inside `<pre><code class="language-X">...</code></pre>`
(shown here for a whole well-formed block: word-character language tag,
and a body that neither contains a closing fence nor ends in a
backtick); but later substitutions still change the block's interior in
the final output — in particular an interior newline becomes `<br>`. -/
theorem c1_amended (lang body : List Char)
    (hlang : lang.all isWordChar = true)
    (hbody : hasSeg ['`', '`', '`'] body = false)
    (hlast : body.getLast? ≠ some '`') :
    runPass codeBlocks
        ('`' :: '`' :: '`' :: (lang ++ '\n' :: (body ++ ['`', '`', '`']))) =
      "<pre><code class=\"language-".data ++
        (if lang.isEmpty then "text".data else lang) ++
        "\">".data ++ jsTrim body ++ "</code></pre>".data ∧
    formatResponse "```js\na\nb\n```" =
      "<p><pre><code class=\"language-js\">a<br>b</code></pre></p>" := by
  refine ⟨?_, by decide⟩
  obtain ⟨ht, hd⟩ := fence_lang_split lang hlang (body ++ ['`', '`', '`'])
  have hsp := splitAtFence_clean body hbody hlast
  have hfm : fenceMatch
      ('`' :: '`' :: '`' :: (lang ++ '\n' :: (body ++ ['`', '`', '`']))) =
      some (codeBlockRepl lang body, []) := by
    simp only [fenceMatch, ht, hd, hsp]
  simp only [runPass, List.length_cons, codeBlocks, hfm, List.append_nil]
  rfl

theorem c1_amended_witness :
    ("js".data.all isWordChar = true) ∧
    (hasSeg ['`', '`', '`'] "a\nb".data = false) ∧
    ("a\nb".data.getLast? ≠ some '`') ∧
    (runPass codeBlocks
          ('`' :: '`' :: '`' :: ("js".data ++ '\n' :: ("a\nb".data ++ ['`', '`', '`']))) =
        "<pre><code class=\"language-".data ++
          (if ("js".data).isEmpty then "text".data else "js".data) ++
          "\">".data ++ jsTrim "a\nb".data ++ "</code></pre>".data ∧
      formatResponse "```js\na\nb\n```" =
        "<p><pre><code class=\"language-js\">a<br>b</code></pre></p>") :=
  ⟨by decide, by decide, by decide,
    c1_amended "js".data "a\nb".data (by decide) (by decide) (by decide)⟩

end AgentClient


